import Mathlib

/-!
Verification of the batched bulk-load pipeline of this repository:
a shallow embedding of `optimized_loader.py` (chunking, bulk insertion and
run statistics), the rate computations of `cargador_optimizado.py` and
`optimized_loader.py`, and the connection / run entry points of
`src/mongodb_connection.py` and `main.py`, with proofs about them.

Documents are opaque to the loader, so they are modelled by an arbitrary
type `α`.  The MongoDB store is modelled as a function from batch position
and batch content to the outcome of the single `insert_many` call made for
that batch.  Timestamps (`datetime.now()` / `time.time()`) are opaque and
passed in as parameters.
-/

namespace BigDataLoader

/-- Outcome of one `collection.insert_many(batch, **options)` call as seen by
`OptimizedBulkLoader.bulk_insert_optimized`: a successful call returns the
list of inserted ids; a `BulkWriteError` carries `details['nInserted']` and
`details['writeErrors']` (index-within-batch, reason); any other exception
carries its message `str(e)`. -/
inductive StoreResult where
  | ok (insertedIds : List Nat)
  | bulkWriteError (nInserted : Nat) (writeErrors : List (Nat × String))
  | exn (msg : String)
deriving DecidableEq

/-- One entry of the `errors` list accumulated by `bulk_insert_optimized`:
an element of `details['writeErrors']` of a `BulkWriteError` (line 101), the
dict `{"error": str(e), "batch_size": len(batch)}` appended on any other
per-batch exception (line 105), or the plain string `str(e)` returned by the
outer handler (line 120). -/
inductive ErrEntry where
  | writeError (index : Nat) (reason : String)
  | batchError (error : String) (batch_size : Nat)
  | exnMessage (msg : String)
deriving DecidableEq

/-- The `self.stats` dict of `OptimizedBulkLoader` (lines 32–39). -/
structure Stats where
  total_processed : Nat
  total_inserted : Nat
  total_errors : Nat
  batches_processed : Nat
  start_time : Option Nat
  end_time : Option Nat
deriving DecidableEq

/-- `OptimizedBulkLoader.__init__`: every counter starts at `0`, both times
at `None`. -/
def initStats : Stats :=
  { total_processed := 0, total_inserted := 0, total_errors := 0,
    batches_processed := 0, start_time := none, end_time := none }

/-- The slices `documents[i : i + B]` for `i = 0, B, 2B, …` produced by
`chunk_documents` when the `range` step `B` is positive.  The `bs = 0` guard
of this helper is unreachable from `chunk_documents`, which treats `B ≤ 0`
separately (see `chunk_documents`). -/
def chunksPos {α : Type} (bs : Nat) (docs : List α) : List (List α) :=
  if h : docs.isEmpty || bs == 0 then []
  else docs.take bs :: chunksPos bs (docs.drop bs)
termination_by docs.length
decreasing_by
  simp only [Bool.or_eq_true, List.isEmpty_iff, beq_iff_eq, not_or] at h
  have h1 : 0 < docs.length := List.length_pos.mpr h.1
  have h2 : 0 < bs := Nat.pos_of_ne_zero h.2
  simpa [List.length_drop] using Nat.sub_lt h1 h2

/-- `OptimizedBulkLoader.chunk_documents` (lines 41–52):
`for i in range(0, len(documents), self.batch_size): yield
documents[i : i + self.batch_size]`.  A `range` with step `0` raises
`ValueError` as soon as the generator is driven; a `range` with a negative
step and stop `len(documents) ≥ 0` is empty, so no batch is yielded; a
positive step yields the slices starting at `0, B, 2B, …`. -/
def chunk_documents {α : Type} (bs : Int) (docs : List α) :
    Except String (List (List α)) :=
  if bs = 0 then .error "range() arg 3 must not be zero"
  else if bs < 0 then .ok []
  else .ok (chunksPos bs.toNat docs)

/-- The batch loop of `bulk_insert_optimized` (lines 81–106).  `store`
gives the outcome of the one `insert_many` call made for each batch (indexed
by batch position).  The loop threads the local `total_inserted` and
`errors` and the field `stats["batches_processed"]`, which is incremented
only on a fully successful call; a `BulkWriteError` adds
`details['nInserted']` and extends `errors` with `details['writeErrors']`;
any other exception appends one `{"error", "batch_size"}` entry and the loop
moves on to the next batch. -/
def processBatches {α : Type} (store : Nat → List α → StoreResult) :
    Nat → List (List α) → Nat → List ErrEntry → Nat →
      Nat × List ErrEntry × Nat
  | _, [], ti, errs, bp => (ti, errs, bp)
  | i, b :: rest, ti, errs, bp =>
    match store i b with
    | .ok ids => processBatches store (i + 1) rest (ti + ids.length) errs (bp + 1)
    | .bulkWriteError n es =>
        processBatches store (i + 1) rest (ti + n)
          (errs ++ es.map fun e => ErrEntry.writeError e.1 e.2) bp
    | .exn msg =>
        processBatches store (i + 1) rest ti
          (errs ++ [ErrEntry.batchError msg b.length]) bp

/-- The dict returned by `bulk_insert_optimized`; the `"batches_processed"`
key is present only on the normal return path (line 115). -/
structure BulkResult where
  inserted_count : Nat
  errors : List ErrEntry
  batches_processed : Option Nat
deriving DecidableEq

/-- `OptimizedBulkLoader.bulk_insert_optimized` (lines 54–120).  `conn`
models `mongo_connection.collection is not None`, `t1`/`t2` the two
`datetime.now()` calls.  An empty document list returns
`{"inserted_count": 0, "errors": []}` before anything else happens; on a
non-empty list `start_time` is stamped first, then a missing connection — or
the `ValueError` raised by `range` when `batch_size = 0` — reaches the outer
handler, which returns `{"inserted_count": 0, "errors": [str(e)]}`;
otherwise every batch is processed and the stats fields `total_inserted`,
`total_errors`, `batches_processed` and `end_time` are written.  The field
`total_processed` is not touched on any path. -/
def bulk_insert_optimized {α : Type} (bs : Int)
    (store : Nat → List α → StoreResult) (t1 t2 : Nat) (conn : Bool)
    (st : Stats) (docs : List α) : BulkResult × Stats :=
  if docs.isEmpty then
    ({ inserted_count := 0, errors := [], batches_processed := none }, st)
  else
    let st1 := { st with start_time := some t1 }
    if conn = false then
      ({ inserted_count := 0,
         errors := [ErrEntry.exnMessage "No hay conexión a MongoDB"],
         batches_processed := none }, st1)
    else if bs = 0 then
      ({ inserted_count := 0,
         errors := [ErrEntry.exnMessage "range() arg 3 must not be zero"],
         batches_processed := none }, st1)
    else
      let batches := if bs < 0 then [] else chunksPos bs.toNat docs
      match processBatches store 0 batches 0 [] st1.batches_processed with
      | (ti, errs, bp) =>
        ({ inserted_count := ti, errors := errs, batches_processed := some bp },
         { st1 with total_inserted := ti, total_errors := errs.length,
                    batches_processed := bp, end_time := some t2 })

/-- Documents one store response contributes to `total_inserted`:
`len(result.inserted_ids)` on success, `details['nInserted']` on a
`BulkWriteError`, nothing on any other exception. -/
def batchInserted : StoreResult → Nat
  | .ok ids => ids.length
  | .bulkWriteError n _ => n
  | .exn _ => 0

/-- Error entries one batch contributes to the `errors` list. -/
def batchErrEntries {α : Type} (b : List α) : StoreResult → List ErrEntry
  | .ok _ => []
  | .bulkWriteError _ es => es.map fun e => ErrEntry.writeError e.1 e.2
  | .exn msg => [ErrEntry.batchError msg b.length]

/-- Whether a store response is a full success — the only case in which
`stats["batches_processed"]` is incremented (line 94). -/
def fullSuccess : StoreResult → Bool
  | .ok _ => true
  | _ => false

/-- Division as in the rate computations: Python float division, `none`
standing for the `ZeroDivisionError` raised when the divisor is zero. -/
def pyDiv (a b : ℚ) : Option ℚ := if b = 0 then none else some (a / b)

/-- The in-loop progress rate of `OptimizedMongoLoader.optimized_bulk_insert`
(cargador_optimizado.py line 55):
`rate = inserted_count / elapsed if elapsed > 0 else 0`. -/
def progress_rate (inserted_count elapsed : ℚ) : Option ℚ :=
  if 0 < elapsed then pyDiv inserted_count elapsed else some 0

/-- The final average rate of the same function (line 66):
`final_rate = inserted_count / total_time`, with no guard on `total_time`. -/
def final_rate (inserted_count total_time : ℚ) : Option ℚ :=
  pyDiv inserted_count total_time

/-- `OptimizedBulkLoader.get_performance_stats` (optimized_loader.py
line 195): `total_inserted / duration if duration > 0 else 0`.  The
`round(_, 2)` applied afterwards is irrelevant to the guard and dropped. -/
def docs_per_second (total_inserted duration : ℚ) : Option ℚ :=
  if 0 < duration then pyDiv total_inserted duration else some 0

/-- `get_performance_stats` (line 204): `duration / batches_processed if
batches_processed > 0 else 0` (the `round(_, 3)` is dropped). -/
def average_batch_time (duration : ℚ) (batches_processed : Nat) : Option ℚ :=
  if 0 < batches_processed then pyDiv duration (batches_processed : ℚ)
  else some 0

/-- Python truthiness of `self.mongodb_uri` as tested by
`if not self.mongodb_uri` (src/mongodb_connection.py line 41): `os.getenv`
returns `None` when the variable is absent, and `None` and the empty string
are both falsy. -/
def uriFalsy : Option String → Bool
  | none => true
  | some s => s.isEmpty

/-- `MongoDBConnection.connect` (src/mongodb_connection.py lines 33–71):
when the URI is missing it logs and returns `False` before any `MongoClient`
is constructed; otherwise the client is built and pinged, and the outcome of
that external interaction is modelled by `pingOk` (every failure path
returns `False`). -/
def connect (uri : Option String) (pingOk : Bool) : Bool :=
  if uriFalsy uri then false else pingOk

/-- `ZipToMongoProcessor.run` (main.py lines 260–302): connect first and
return `False` when the connection fails, before any ZIP is processed and
before any document is written; otherwise process the ZIP files — modelled
by `process`, returning `stats["total_zips_processed"]` and the number of
documents written — and return `total_zips_processed > 0`.  The second
component of the result counts the documents written during the run. -/
def runProcessor (uri : Option String) (pingOk : Bool)
    (process : Unit → Nat × Nat) : Bool × Nat :=
  if connect uri pingOk = false then (false, 0)
  else ((process ()).1 != 0, (process ()).2)

/-- `main()` (main.py): `success = processor.run(zip_files)` followed by
`return 0 if success else 1`, handed to `sys.exit`. -/
def mainExitCode (uri : Option String) (pingOk : Bool)
    (process : Unit → Nat × Nat) : Nat :=
  if (runProcessor uri pingOk process).1 then 0 else 1

/-! Unfolding and structural lemmas for `chunksPos`. -/

theorem chunksPos_eq {α : Type} (bs : Nat) (docs : List α) :
    chunksPos bs docs
      = if docs.isEmpty || bs == 0 then []
        else docs.take bs :: chunksPos bs (docs.drop bs) := by
  rw [chunksPos, dite_eq_ite]

theorem chunksPos_nil {α : Type} (bs : Nat) : chunksPos bs ([] : List α) = [] := by
  rw [chunksPos_eq]; simp

theorem chunksPos_cons {α : Type} (bs : Nat) (hbs : bs ≠ 0) (docs : List α)
    (hd : docs ≠ []) :
    chunksPos bs docs = docs.take bs :: chunksPos bs (docs.drop bs) := by
  rw [chunksPos_eq]
  simp [hd, hbs]

theorem chunksPos_flatten {α : Type} (bs : Nat) (hbs : bs ≠ 0) (docs : List α) :
    (chunksPos bs docs).flatten = docs := by
  rcases eq_or_ne docs [] with rfl | hd
  · simp [chunksPos_nil]
  · rw [chunksPos_cons bs hbs docs hd, List.flatten_cons,
        chunksPos_flatten bs hbs (docs.drop bs)]
    exact List.take_append_drop bs docs
termination_by docs.length
decreasing_by
  have h1 : 0 < docs.length := List.length_pos.mpr hd
  simpa [List.length_drop] using Nat.sub_lt h1 (Nat.pos_of_ne_zero hbs)

theorem chunksPos_map_length {α : Type} (bs : Nat) (hbs : bs ≠ 0) (docs : List α)
    (hd : docs ≠ []) :
    (chunksPos bs docs).map List.length
      = List.replicate ((docs.length - 1) / bs) bs
          ++ [docs.length - (docs.length - 1) / bs * bs] := by
  have h0 : 0 < docs.length := List.length_pos.mpr hd
  rcases le_or_lt docs.length bs with hle | hgt
  · have hdiv : (docs.length - 1) / bs = 0 := Nat.div_eq_of_lt (by omega)
    rw [chunksPos_cons bs hbs docs hd, List.drop_eq_nil_of_le hle, chunksPos_nil,
        List.take_of_length_le hle, hdiv]
    simp
  · have hdne : docs.drop bs ≠ [] := by
      apply List.length_pos.mp
      simp only [List.length_drop]
      omega
    rw [chunksPos_cons bs hbs docs hd, List.map_cons,
        chunksPos_map_length bs hbs (docs.drop bs) hdne]
    have htake : (docs.take bs).length = bs := by
      simp only [List.length_take]
      omega
    have hdroplen : (docs.drop bs).length = docs.length - bs := List.length_drop bs docs
    have hstep : (docs.length - 1) / bs = (docs.length - bs - 1) / bs + 1 := by
      have harith : docs.length - 1 = (docs.length - bs - 1) + bs := by omega
      rw [harith, Nat.add_div_right _ (Nat.pos_of_ne_zero hbs)]
    rw [htake, hdroplen, hstep, List.replicate_succ, List.cons_append]
    have hmul : ((docs.length - bs - 1) / bs + 1) * bs
        = (docs.length - bs - 1) / bs * bs + bs := by ring
    have hlast : docs.length - bs - (docs.length - bs - 1) / bs * bs
        = docs.length - ((docs.length - bs - 1) / bs + 1) * bs := by
      rw [hmul]
      omega
    rw [hlast]
termination_by docs.length
decreasing_by
  simpa [List.length_drop] using Nat.sub_lt h0 (Nat.pos_of_ne_zero hbs)

theorem chunksPos_length_eq {α : Type} (bs : Nat) (hbs : bs ≠ 0) (docs : List α) :
    (chunksPos bs docs).length = (docs.length + bs - 1) / bs := by
  rcases eq_or_ne docs [] with rfl | hd
  · rw [chunksPos_nil]
    simp only [List.length_nil]
    exact (Nat.div_eq_of_lt (by omega)).symm
  · have h0 : 0 < docs.length := List.length_pos.mpr hd
    have h := congrArg List.length (chunksPos_map_length bs hbs docs hd)
    simp only [List.length_map, List.length_append, List.length_replicate,
      List.length_cons, List.length_nil] at h
    have harith : docs.length + bs - 1 = (docs.length - 1) + bs := by omega
    rw [h, harith, Nat.add_div_right _ (Nat.pos_of_ne_zero hbs)]

theorem chunksPos_forall_ne_nil {α : Type} (bs : Nat) (hbs : bs ≠ 0)
    (docs : List α) : ∀ b ∈ chunksPos bs docs, b ≠ [] := by
  intro b hb
  rcases eq_or_ne docs [] with rfl | hd
  · rw [chunksPos_nil] at hb
    simp at hb
  · rw [chunksPos_cons bs hbs docs hd] at hb
    rcases List.mem_cons.mp hb with rfl | hb2
    · simp [List.take_eq_nil_iff, hbs, hd]
    · exact chunksPos_forall_ne_nil bs hbs (docs.drop bs) b hb2
termination_by docs.length
decreasing_by
  have h1 : 0 < docs.length := List.length_pos.mpr hd
  simpa [List.length_drop] using Nat.sub_lt h1 (Nat.pos_of_ne_zero hbs)

theorem chunksPos_of_length_le {α : Type} (bs : Nat) (docs : List α)
    (hd : docs ≠ []) (hle : docs.length ≤ bs) :
    chunksPos bs docs = [docs] := by
  have hbs : bs ≠ 0 := by
    have := List.length_pos.mpr hd
    omega
  rw [chunksPos_cons bs hbs docs hd, List.take_of_length_le hle,
      List.drop_eq_nil_of_le hle, chunksPos_nil]

theorem chunksPos_append {α : Type} (bs : Nat) (hbs : bs ≠ 0) (l1 l2 : List α)
    (h : l1.length = bs) :
    chunksPos bs (l1 ++ l2) = l1 :: chunksPos bs l2 := by
  have hd : l1 ++ l2 ≠ [] := by
    intro hc
    rcases List.append_eq_nil.mp hc with ⟨h1, _⟩
    rw [h1] at h
    exact hbs h.symm
  rw [chunksPos_cons bs hbs _ hd, List.take_left' h, List.drop_left' h]

/-! Characterization of the batch loop and of a full bulk-insert run. -/

theorem processBatches_eq {α : Type} (store : Nat → List α → StoreResult)
    (i : Nat) (batches : List (List α)) (ti : Nat) (errs : List ErrEntry)
    (bp : Nat) :
    processBatches store i batches ti errs bp
      = (ti + ((batches.enumFrom i).map fun p => batchInserted (store p.1 p.2)).sum,
         errs ++ ((batches.enumFrom i).map
             fun p => batchErrEntries p.2 (store p.1 p.2)).flatten,
         bp + (batches.enumFrom i).countP fun p => fullSuccess (store p.1 p.2)) := by
  induction batches generalizing i ti errs bp with
  | nil => simp [processBatches]
  | cons b rest ih =>
    cases hs : store i b with
    | ok ids =>
        simp [processBatches, hs, ih, batchInserted, batchErrEntries, fullSuccess,
          List.enumFrom, List.countP_cons, Nat.add_assoc, Nat.add_comm,
          Nat.add_left_comm]
    | bulkWriteError n es =>
        simp [processBatches, hs, ih, batchInserted, batchErrEntries, fullSuccess,
          List.enumFrom, List.countP_cons, Nat.add_assoc, Nat.add_comm,
          Nat.add_left_comm]
    | exn msg =>
        simp [processBatches, hs, ih, batchInserted, batchErrEntries, fullSuccess,
          List.enumFrom, List.countP_cons, Nat.add_assoc, Nat.add_comm,
          Nat.add_left_comm]

theorem bulk_insert_run {α : Type} (bs : Int) (hbs : 0 < bs)
    (store : Nat → List α → StoreResult) (t1 t2 : Nat) (st : Stats)
    (docs : List α) (hd : docs ≠ []) :
    bulk_insert_optimized bs store t1 t2 true st docs
      = ({ inserted_count :=
             (((chunksPos bs.toNat docs).enumFrom 0).map
               fun p => batchInserted (store p.1 p.2)).sum,
           errors :=
             (((chunksPos bs.toNat docs).enumFrom 0).map
               fun p => batchErrEntries p.2 (store p.1 p.2)).flatten,
           batches_processed :=
             some (st.batches_processed
               + ((chunksPos bs.toNat docs).enumFrom 0).countP
                   fun p => fullSuccess (store p.1 p.2)) },
         { st with
           start_time := some t1,
           end_time := some t2,
           total_inserted :=
             (((chunksPos bs.toNat docs).enumFrom 0).map
               fun p => batchInserted (store p.1 p.2)).sum,
           total_errors :=
             ((((chunksPos bs.toNat docs).enumFrom 0).map
               fun p => batchErrEntries p.2 (store p.1 p.2)).flatten).length,
           batches_processed :=
             st.batches_processed
               + ((chunksPos bs.toNat docs).enumFrom 0).countP
                   fun p => fullSuccess (store p.1 p.2) }) := by
  have hne : docs.isEmpty = false := by
    simp [List.isEmpty_iff, hd]
  have hbs0 : ¬ bs = 0 := by omega
  have hbsneg : ¬ bs < 0 := by omega
  simp only [bulk_insert_optimized, hne, Bool.false_eq_true, if_false,
    hbs0, hbsneg, if_true, processBatches_eq, Nat.zero_add, List.nil_append]
  simp

/-- C1: for every document list and every batch size `B > 0`,
`chunk_documents` yields exactly `⌈N/B⌉ = (N + B - 1) / B` batches whose
concatenation is the input list, order preserved; an empty input yields zero
batches; every batch is nonempty; and the batch lengths are `B` for every
batch but the last, whose length is the remainder `N - (⌈N/B⌉ - 1)·B`. -/
theorem chunk_documents_partition {α : Type} (bs : Int) (hbs : 0 < bs)
    (docs : List α) :
    ∃ cs, chunk_documents bs docs = .ok cs
      ∧ cs.length = (docs.length + bs.toNat - 1) / bs.toNat
      ∧ cs.flatten = docs
      ∧ (docs = [] → cs = [])
      ∧ (docs ≠ [] →
          cs.map List.length
            = List.replicate ((docs.length - 1) / bs.toNat) bs.toNat
                ++ [docs.length - (docs.length - 1) / bs.toNat * bs.toNat])
      ∧ ∀ b ∈ cs, b ≠ [] := by
  have hbs0 : bs.toNat ≠ 0 := by omega
  refine ⟨chunksPos bs.toNat docs, ?_, chunksPos_length_eq _ hbs0 _,
    chunksPos_flatten _ hbs0 _, ?_, fun hd => chunksPos_map_length _ hbs0 _ hd,
    chunksPos_forall_ne_nil _ hbs0 _⟩
  · have h1 : ¬ bs = 0 := by omega
    have h2 : ¬ bs < 0 := by omega
    simp [chunk_documents, h1, h2]
  · rintro rfl
    exact chunksPos_nil _

/-- Witness for `chunk_documents_partition` at `B = 1000` over 7395
documents: 8 batches, 7 of size 1000 and one of size 395, concatenating back
to the input. -/
theorem chunk_documents_partition_witness :
    ∃ cs, chunk_documents (1000 : Int) (List.replicate 7395 (0 : Nat)) = .ok cs
      ∧ cs.length = 8
      ∧ cs.map List.length = List.replicate 7 1000 ++ [395]
      ∧ cs.flatten = List.replicate 7395 (0 : Nat) := by
  obtain ⟨cs, h1, h2, h3, _, h5, _⟩ :=
    chunk_documents_partition (1000 : Int) (by norm_num)
      (List.replicate 7395 (0 : Nat))
  have hne : List.replicate 7395 (0 : Nat) ≠ [] := by
    intro hcon
    have hlen := congrArg List.length hcon
    rw [List.length_replicate] at hlen
    exact absurd hlen (by norm_num)
  refine ⟨cs, h1, ?_, ?_, h3⟩
  · rw [h2, List.length_replicate]
    decide
  · have h := h5 hne
    rw [List.length_replicate] at h
    rw [h]
    decide

/-- C6 amended: the partitioner does not validate the batch size.  For
`B > 0` it succeeds; for `B = 0` driving the generator raises the `range`
step error (a `ValueError`, not a dedicated configuration failure); for
`B < 0` the `range` is empty, so the partitioner silently yields zero
batches instead of failing. -/
theorem chunk_documents_bad_batch_size {α : Type} (bs : Int) (docs : List α) :
    (0 < bs → chunk_documents bs docs = .ok (chunksPos bs.toNat docs))
    ∧ (bs = 0 →
        chunk_documents bs docs = .error "range() arg 3 must not be zero")
    ∧ (bs < 0 → chunk_documents bs docs = .ok []) := by
  refine ⟨fun h => ?_, fun h => ?_, fun h => ?_⟩
  · have h1 : ¬ bs = 0 := by omega
    have h2 : ¬ bs < 0 := by omega
    simp [chunk_documents, h1, h2]
  · simp [chunk_documents, h]
  · have h1 : ¬ bs = 0 := by omega
    simp [chunk_documents, h1, h]

/-- C6 counterexample: with batch size `-1` and a nonempty input the
partitioner does not fail at all — it silently yields zero batches. -/
theorem chunk_documents_neg_bs_cex :
    chunk_documents (-1 : Int) ([0] : List Nat) = .ok [] := by
  norm_num [chunk_documents]

/-- Witness for `chunk_documents_bad_batch_size` at batch sizes `2`, `0`
and `-3`. -/
theorem chunk_documents_bad_batch_size_witness :
    chunk_documents (2 : Int) ([0] : List Nat) = .ok (chunksPos 2 [0])
    ∧ chunk_documents (0 : Int) ([0] : List Nat)
        = .error "range() arg 3 must not be zero"
    ∧ chunk_documents (-3 : Int) ([0] : List Nat) = .ok [] := by
  refine ⟨?_, ?_, ?_⟩
  · simpa using (chunk_documents_bad_batch_size (2 : Int) ([0] : List Nat)).1
      (by norm_num)
  · exact (chunk_documents_bad_batch_size (0 : Int) ([0] : List Nat)).2.1 rfl
  · exact (chunk_documents_bad_batch_size (-3 : Int) ([0] : List Nat)).2.2
      (by norm_num)

/-- C9: on the empty document list `bulk_insert_optimized` returns
`{"inserted_count": 0, "errors": []}` immediately: the result does not
depend on the store (it is never consulted), and the loader's stats —
all counters, `start_time` and `end_time` — are returned unchanged. -/
theorem empty_input_returns_immediately {α : Type} (bs : Int)
    (store : Nat → List α → StoreResult) (t1 t2 : Nat) (conn : Bool)
    (st : Stats) :
    bulk_insert_optimized bs store t1 t2 conn st ([] : List α)
      = ({ inserted_count := 0, errors := [], batches_processed := none },
         st) := by
  simp [bulk_insert_optimized]

/-- C7: with `MONGODB_URI` absent from the environment, `connect` returns
failure whatever the store would have answered (no connection attempt is
consulted), the run returns failure with zero documents written whatever the
processing stage would have done (it is never invoked), and the process exit
code is `1`. -/
theorem missing_uri_fatal (pingOk : Bool) (process : Unit → Nat × Nat) :
    connect none pingOk = false
    ∧ runProcessor none pingOk process = (false, 0)
    ∧ mainExitCode none pingOk process = 1 := by
  refine ⟨rfl, ?_, ?_⟩ <;> simp [runProcessor, mainExitCode, connect, uriFalsy]

/-- C2: the claim fails on the code.  The `total_processed` field of the run
stats — the spec's cumulative `attempted` counter — is initialized to `0` in
`__init__` and never written by `bulk_insert_optimized` on any path, so
after a full run over `N ≥ 1` documents it still holds its prior value (`0`
for a fresh loader), not `N`. -/
theorem total_processed_never_written {α : Type} (bs : Int)
    (store : Nat → List α → StoreResult) (t1 t2 : Nat) (conn : Bool)
    (st : Stats) (docs : List α) :
    (bulk_insert_optimized bs store t1 t2 conn st docs).2.total_processed
      = st.total_processed := by
  unfold bulk_insert_optimized
  repeat' split
  all_goals rfl

/-- C8 counterexample: the final average rate of
`OptimizedMongoLoader.optimized_bulk_insert` is not guarded — at elapsed
time `0` it is a `ZeroDivisionError`, not `0` — although the in-loop rate at
the same point is `0`. -/
theorem final_rate_unguarded_cex :
    final_rate 5 0 = none ∧ progress_rate 5 0 = some 0 := by
  constructor <;> norm_num [final_rate, progress_rate, pyDiv]

/-- C8 amended: the in-loop rate of `optimized_bulk_insert` and both
`get_performance_stats` metrics are guarded and equal `0` whenever the
elapsed quantity is not positive, but the final average rate of
`optimized_bulk_insert` divides unconditionally: it is the true quotient for
a nonzero elapsed time and a `ZeroDivisionError` at elapsed time `0`. -/
theorem rate_guards (x d : ℚ) :
    (d ≤ 0 → progress_rate x d = some 0)
    ∧ (d ≤ 0 → docs_per_second x d = some 0)
    ∧ average_batch_time x 0 = some 0
    ∧ (d ≠ 0 → final_rate x d = some (x / d))
    ∧ final_rate x 0 = none := by
  refine ⟨fun h => ?_, fun h => ?_, ?_, fun h => ?_, ?_⟩
  · simp [progress_rate, not_lt.mpr h]
  · simp [docs_per_second, not_lt.mpr h]
  · simp [average_batch_time]
  · simp [final_rate, pyDiv, h]
  · simp [final_rate, pyDiv]

/-- Witness for `rate_guards` at `x = 3` with elapsed times `2` and `0`. -/
theorem rate_guards_witness :
    progress_rate 3 0 = some 0
    ∧ final_rate 3 2 = some (3 / 2)
    ∧ final_rate 3 0 = none := by
  exact ⟨(rate_guards 3 0).1 le_rfl,
    (rate_guards 3 2).2.2.2.1 (by norm_num),
    (rate_guards 3 0).2.2.2.2⟩

/-- C3: when the store reports a `BulkWriteError` on the (single) batch of a
run, `bulk_insert_optimized` recovers `details['nInserted']` into the
inserted total and appends every `details['writeErrors']` descriptor to the
error list; the run stats record the same inserted count and the number of
per-item errors. -/
theorem partial_failure_recovery {α : Type} (bs : Int) (hbs : 0 < bs)
    (store : Nat → List α → StoreResult) (t1 t2 : Nat) (st : Stats)
    (docs : List α) (hd : docs ≠ []) (hlen : docs.length ≤ bs.toNat)
    (n : Nat) (es : List (Nat × String))
    (hstore : store 0 docs = .bulkWriteError n es) :
    (bulk_insert_optimized bs store t1 t2 true st docs).1.inserted_count = n
    ∧ (bulk_insert_optimized bs store t1 t2 true st docs).1.errors
        = es.map (fun e => ErrEntry.writeError e.1 e.2)
    ∧ (bulk_insert_optimized bs store t1 t2 true st docs).2.total_inserted = n
    ∧ (bulk_insert_optimized bs store t1 t2 true st docs).2.total_errors
        = es.length := by
  rw [bulk_insert_run bs hbs store t1 t2 st docs hd,
      chunksPos_of_length_le bs.toNat docs hd hlen]
  simp [List.enumFrom, hstore, batchInserted, batchErrEntries]

/-- Witness for `partial_failure_recovery`: a 10-item unordered batch whose
store response rejects indices 2 and 5 and reports 8 documents inserted.
The outcome carries the 8 inserted and the two per-item errors, and the
fresh loader's stats record 8 inserted and 2 errors. -/
theorem partial_failure_recovery_witness :
    (bulk_insert_optimized 1000
        (fun _ _ => StoreResult.bulkWriteError 8 [(2, "dup"), (5, "dup")])
        0 1 true initStats (List.range 10)).1.inserted_count = 8
    ∧ (bulk_insert_optimized 1000
        (fun _ _ => StoreResult.bulkWriteError 8 [(2, "dup"), (5, "dup")])
        0 1 true initStats (List.range 10)).1.errors
        = [ErrEntry.writeError 2 "dup", ErrEntry.writeError 5 "dup"]
    ∧ (bulk_insert_optimized 1000
        (fun _ _ => StoreResult.bulkWriteError 8 [(2, "dup"), (5, "dup")])
        0 1 true initStats (List.range 10)).2.total_inserted = 8
    ∧ (bulk_insert_optimized 1000
        (fun _ _ => StoreResult.bulkWriteError 8 [(2, "dup"), (5, "dup")])
        0 1 true initStats (List.range 10)).2.total_errors = 2 := by
  obtain ⟨h1, h2, h3, h4⟩ := partial_failure_recovery 1000 (by norm_num)
      (fun _ _ => StoreResult.bulkWriteError 8 [(2, "dup"), (5, "dup")])
      0 1 initStats (List.range 10) (by simp) (by simp) 8
      [(2, "dup"), (5, "dup")] rfl
  exact ⟨h1, by simpa using h2, h3, by simpa using h4⟩

/-- C4: a hard (non-`BulkWriteError`) exception on a batch never stops the
run: the loop records exactly one error entry for the failed batch and then
processes every remaining batch in order — the final totals are the
accumulated contributions of all remaining batches, the failed batch's
documents are never resubmitted and contribute nothing to the inserted
total, and the loop reaches its normal end. -/
theorem hard_failure_run_continues {α : Type}
    (store : Nat → List α → StoreResult) (i : Nat) (b : List α)
    (rest : List (List α)) (ti : Nat) (errs : List ErrEntry) (bp : Nat)
    (msg : String) (hs : store i b = .exn msg) :
    processBatches store i (b :: rest) ti errs bp
      = (ti + ((rest.enumFrom (i + 1)).map
            fun p => batchInserted (store p.1 p.2)).sum,
         errs ++ ErrEntry.batchError msg b.length
           :: ((rest.enumFrom (i + 1)).map
            fun p => batchErrEntries p.2 (store p.1 p.2)).flatten,
         bp + (rest.enumFrom (i + 1)).countP
            fun p => fullSuccess (store p.1 p.2)) := by
  have hstep : processBatches store i (b :: rest) ti errs bp
      = processBatches store (i + 1) rest ti
          (errs ++ [ErrEntry.batchError msg b.length]) bp := by
    simp [processBatches, hs]
  rw [hstep, processBatches_eq]
  simp

/-- Witness for `hard_failure_run_continues`: a hard failure on the first of
three batches; the two remaining batches are still processed and fully
succeed. -/
theorem hard_failure_run_continues_witness :
    processBatches
        (fun i b => if i = 0 then StoreResult.exn "boom" else StoreResult.ok b)
        0 [[1, 2], [3], [4]] 0 [] 0
      = (2, [ErrEntry.batchError "boom" 2], 2) := by
  have h := hard_failure_run_continues
      (fun i b => if i = 0 then StoreResult.exn "boom" else StoreResult.ok b)
      0 [1, 2] [[3], [4]] 0 [] 0 "boom" rfl
  rw [h]
  decide

/-! Concrete evaluations of `chunksPos`, used below. -/

theorem chunksPos_two_range_ten :
    chunksPos 2 ([0, 1, 2, 3, 4, 5, 6, 7, 8, 9] : List Nat)
      = [[0, 1], [2, 3], [4, 5], [6, 7], [8, 9]] := by
  have h2 : (2 : Nat) ≠ 0 := by norm_num
  rw [show ([0, 1, 2, 3, 4, 5, 6, 7, 8, 9] : List Nat)
        = [0, 1] ++ [2, 3, 4, 5, 6, 7, 8, 9] from rfl,
      chunksPos_append 2 h2 [0, 1] _ rfl,
      show ([2, 3, 4, 5, 6, 7, 8, 9] : List Nat)
        = [2, 3] ++ [4, 5, 6, 7, 8, 9] from rfl,
      chunksPos_append 2 h2 [2, 3] _ rfl,
      show ([4, 5, 6, 7, 8, 9] : List Nat) = [4, 5] ++ [6, 7, 8, 9] from rfl,
      chunksPos_append 2 h2 [4, 5] _ rfl,
      show ([6, 7, 8, 9] : List Nat) = [6, 7] ++ [8, 9] from rfl,
      chunksPos_append 2 h2 [6, 7] _ rfl,
      chunksPos_of_length_le 2 [8, 9] (by simp) (by simp)]

theorem chunksPos_two_range_six :
    chunksPos 2 ([0, 1, 2, 3, 4, 5] : List Nat) = [[0, 1], [2, 3], [4, 5]] := by
  have h2 : (2 : Nat) ≠ 0 := by norm_num
  rw [show ([0, 1, 2, 3, 4, 5] : List Nat) = [0, 1] ++ [2, 3, 4, 5] from rfl,
      chunksPos_append 2 h2 [0, 1] _ rfl,
      show ([2, 3, 4, 5] : List Nat) = [2, 3] ++ [4, 5] from rfl,
      chunksPos_append 2 h2 [2, 3] _ rfl,
      chunksPos_of_length_le 2 [4, 5] (by simp) (by simp)]

/-- C5 counterexample: five batches of two documents with a transport
failure on batch 3.  The failed batch is recorded with its single reason and
its size, but the final `total_errors` of the run is `1` — the number of
error entries — not the batch's full size `2`. -/
theorem hard_failure_errored_count_cex :
    (bulk_insert_optimized 2
        (fun i b => if i = 2 then StoreResult.exn "transport"
          else StoreResult.ok b)
        0 1 true initStats ([0, 1, 2, 3, 4, 5, 6, 7, 8, 9] : List Nat)).1.errors
      = [ErrEntry.batchError "transport" 2]
    ∧ (bulk_insert_optimized 2
        (fun i b => if i = 2 then StoreResult.exn "transport"
          else StoreResult.ok b)
        0 1 true initStats
        ([0, 1, 2, 3, 4, 5, 6, 7, 8, 9] : List Nat)).2.total_errors = 1 := by
  rw [bulk_insert_run 2 (by norm_num) _ 0 1 initStats _ (by simp)]
  simp only [show ((2 : Int).toNat) = 2 from rfl, chunksPos_two_range_ten]
  constructor <;> decide

/-- C5 amended: a hard-failed batch is appended to the error record as a
single descriptor carrying the failure reason and the batch's size, and the
final `total_errors` of a run counts error entries — one per hard-failed
batch — rather than the failed batches' document counts: the error list of a
run is the concatenation of the per-batch entry lists, `total_errors` is its
length, and a hard failure contributes exactly the one entry
`batchError reason size`. -/
theorem hard_failure_single_error_entry {α : Type} (bs : Int) (hbs : 0 < bs)
    (store : Nat → List α → StoreResult) (t1 t2 : Nat) (st : Stats)
    (docs : List α) (hd : docs ≠ []) :
    (bulk_insert_optimized bs store t1 t2 true st docs).1.errors
      = (((chunksPos bs.toNat docs).enumFrom 0).map
          fun p => batchErrEntries p.2 (store p.1 p.2)).flatten
    ∧ (bulk_insert_optimized bs store t1 t2 true st docs).2.total_errors
      = ((((chunksPos bs.toNat docs).enumFrom 0).map
          fun p => batchErrEntries p.2 (store p.1 p.2)).flatten).length
    ∧ ∀ (b : List α) (r : String),
        batchErrEntries b (StoreResult.exn r)
          = [ErrEntry.batchError r b.length] := by
  rw [bulk_insert_run bs hbs store t1 t2 st docs hd]
  exact ⟨rfl, rfl, fun b r => rfl⟩

/-- Witness for `hard_failure_single_error_entry`: three batches of two
documents with a transport failure on the second; the error record holds the
one descriptor with reason and batch size, and `total_errors` is `1`. -/
theorem hard_failure_single_error_entry_witness :
    (bulk_insert_optimized 2
        (fun i b => if i = 1 then StoreResult.exn "down" else StoreResult.ok b)
        0 1 true initStats ([0, 1, 2, 3, 4, 5] : List Nat)).1.errors
      = [ErrEntry.batchError "down" 2]
    ∧ (bulk_insert_optimized 2
        (fun i b => if i = 1 then StoreResult.exn "down" else StoreResult.ok b)
        0 1 true initStats
        ([0, 1, 2, 3, 4, 5] : List Nat)).2.total_errors = 1 := by
  obtain ⟨h1, h2, _⟩ := hard_failure_single_error_entry 2 (by norm_num)
      (fun i b => if i = 1 then StoreResult.exn "down" else StoreResult.ok b)
      0 1 initStats ([0, 1, 2, 3, 4, 5] : List Nat) (by simp)
  constructor
  · rw [h1]
    simp only [show ((2 : Int).toNat) = 2 from rfl, chunksPos_two_range_six]
    decide
  · rw [h2]
    simp only [show ((2 : Int).toNat) = 2 from rfl, chunksPos_two_range_six]
    decide

/-- C10: after a run of `bulk_insert_optimized` over a nonempty input,
`batches_processed` has grown by exactly the number of batches whose store
call raised no error at all — partially failed and hard-failed batches are
not counted — while the inserted total still includes every batch's
recovered inserted count. -/
theorem batches_processed_full_successes {α : Type} (bs : Int) (hbs : 0 < bs)
    (store : Nat → List α → StoreResult) (t1 t2 : Nat) (st : Stats)
    (docs : List α) (hd : docs ≠ []) :
    (bulk_insert_optimized bs store t1 t2 true st docs).2.batches_processed
      = st.batches_processed
        + ((chunksPos bs.toNat docs).enumFrom 0).countP
            (fun p => fullSuccess (store p.1 p.2))
    ∧ (bulk_insert_optimized bs store t1 t2 true st docs).2.total_inserted
      = (((chunksPos bs.toNat docs).enumFrom 0).map
          fun p => batchInserted (store p.1 p.2)).sum := by
  rw [bulk_insert_run bs hbs store t1 t2 st docs hd]
  exact ⟨rfl, rfl⟩

/-- Witness for `batches_processed_full_successes`: three batches — a full
success, a partial failure reporting one inserted, and a hard failure — from
a fresh loader: only the first batch is counted in `batches_processed`,
while the partial batch's recovered insert still reaches the total. -/
theorem batches_processed_full_successes_witness :
    (bulk_insert_optimized 2
        (fun i b => if i = 0 then StoreResult.ok b
          else if i = 1 then StoreResult.bulkWriteError 1 [(0, "dup")]
          else StoreResult.exn "down")
        0 1 true initStats
        ([0, 1, 2, 3, 4, 5] : List Nat)).2.batches_processed = 1
    ∧ (bulk_insert_optimized 2
        (fun i b => if i = 0 then StoreResult.ok b
          else if i = 1 then StoreResult.bulkWriteError 1 [(0, "dup")]
          else StoreResult.exn "down")
        0 1 true initStats
        ([0, 1, 2, 3, 4, 5] : List Nat)).2.total_inserted = 3 := by
  obtain ⟨h1, h2⟩ := batches_processed_full_successes 2 (by norm_num)
      (fun i b => if i = 0 then StoreResult.ok b
        else if i = 1 then StoreResult.bulkWriteError 1 [(0, "dup")]
        else StoreResult.exn "down")
      0 1 initStats ([0, 1, 2, 3, 4, 5] : List Nat) (by simp)
  constructor
  · rw [h1]
    simp only [show ((2 : Int).toNat) = 2 from rfl, chunksPos_two_range_six]
    decide
  · rw [h2]
    simp only [show ((2 : Int).toNat) = 2 from rfl, chunksPos_two_range_six]
    decide

end BigDataLoader
